import Mathlib

/-!
Verification development for the pot-app-qwen-mt translation plugin.

The repository's core is a single `translate` function (src/main.js) that
resolves a translation request through: cache lookup (SQLite, fail-open),
term-store loading with legacy-JSON migration, whole-word term matching,
request building, a remote HTTP call, response normalization, and cache
write-back.  The definitions below are a shallow embedding of that code:
pure string manipulation is embedded directly; the stateful SQLite and
filesystem collaborators are embedded as explicit state values plus outcome
flags for the points where a collaborator call can fail (each such failure
is caught by a `try`/`catch` in the source).
-/

/-! ## JS string primitives used by src/main.js -/

/-- Whitespace characters recognized by the JavaScript string `trim()`
(the code points relevant to this code base; `trim` in JS strips the
Unicode WhiteSpace class, of which these are the members that can occur
in the provider responses and configuration values modelled here). -/
def jsWhitespace (c : Char) : Bool :=
  c == ' ' || c == '\t' || c == '\n' || c == '\r' || c == '\x0b' ||
  c == '\x0c' || c == '\u00a0' || c == '\ufeff' || c == '\u2028' || c == '\u2029'

/-- Embedding of JavaScript `String.prototype.trim` on character lists:
drop whitespace from both ends. -/
def jsTrimChars (l : List Char) : List Char :=
  ((l.dropWhile jsWhitespace).reverse.dropWhile jsWhitespace).reverse

/-- JavaScript `s.trim()` (used at `databaseFile.trim() !== ''` and
`termsFile.trim() !== ''` in src/main.js lines 50 and 97). -/
def jsTrim (s : String) : String :=
  String.mk (jsTrimChars s.toList)

/-- Decimal digit test, '0'..'9'. -/
def digitChar (c : Char) : Bool :=
  '0' ≤ c && c ≤ '9'

/-- Value of a digit string read left to right. -/
def natOfDigits (l : List Char) : Nat :=
  l.foldl (fun a c => a * 10 + (c.toNat - 48)) 0

/-- Embedding of JavaScript `parseFloat` for the value shapes that can
appear in the plugin's `temperature` configuration: optional leading
whitespace, an optional sign, then decimal digits with an optional
fractional part; trailing garbage is ignored.  `none` stands for `NaN`
(no digits at all).  Exponent forms and `Infinity`, which `parseFloat`
also accepts, do not occur in any claim input and are outside the model.
Rationals stand in for IEEE doubles: every input in scope is a short
decimal literal, represented exactly by both. -/
def jsParseFloat (s : String) : Option ℚ :=
  let l := s.toList.dropWhile jsWhitespace
  let signAndRest : ℚ × List Char :=
    match l with
    | '-' :: r => (-1, r)
    | '+' :: r => (1, r)
    | _ => (1, l)
  let ip := signAndRest.2.takeWhile digitChar
  let l2 := signAndRest.2.drop ip.length
  let fp :=
    match l2 with
    | '.' :: r => r.takeWhile digitChar
    | _ => []
  if ip.length = 0 ∧ fp.length = 0 then none
  else some (signAndRest.1 * ((natOfDigits ip : ℚ) + (natOfDigits fp : ℚ) / (10 : ℚ) ^ fp.length))

/-- Temperature resolution of src/main.js line 249:
`"temperature": parseFloat(temperature) || 0.65`.
`none` models an undefined configuration field (`parseFloat(undefined)` is
`NaN`).  JavaScript `||` replaces every falsy left operand, so both `NaN`
(parse failure) and `0` fall through to the default `0.65`; any other
parsed number — in range or not — is used as is. -/
def resolveTemperature (temperature : Option String) : ℚ :=
  match temperature with
  | none => 0.65
  | some s =>
    match jsParseFloat s with
    | none => 0.65
    | some v => if v = 0 then 0.65 else v

/-- Temperature resolution of the clamping variant
(src/unnamed/part_001 lines 91-104): an undefined, null or empty
configured value defaults to `0.65`; otherwise the value is parsed and
kept only when it is a number inside `[0, 2)`, with everything else
defaulting to `0.65`. -/
def resolveTemperatureClamped (temperature : Option String) : ℚ :=
  match temperature with
  | none => 0.65
  | some s =>
    if s = "" then 0.65
    else
      match jsParseFloat s with
      | none => 0.65
      | some v => if 0 ≤ v ∧ v < 2 then v else 0.65

/-! ## Response normalization (src/main.js lines 271-276) -/

/-- Generic prefix test on lists, mirroring the leftmost-match probe of the
JavaScript regular-expression engine. -/
def listStartsWith [BEq α] : List α → List α → Bool
  | [], _ => true
  | _ :: _, [] => false
  | p :: ps, x :: xs => p == x && listStartsWith ps xs

/-- Whether `pat` occurs as a contiguous sublist anywhere in `l`. -/
def containsSub [BEq α] (pat : List α) : List α → Bool
  | [] => listStartsWith pat ([] : List α)
  | c :: rest => listStartsWith pat (c :: rest) || containsSub pat rest

/-- The sentinel end-of-content marker stripped by the normalizer. -/
def sentinelToken : String := "<|endofcontent|>"

/-- Character list of the sentinel marker. -/
def sentinelChars : List Char := sentinelToken.toList

/-- Scanner behind `stripSentinel`, structurally recursive on a fuel
argument so that it also evaluates inside the kernel; the fuel never runs
out when it starts at the text's length, because each step consumes at
least one character. -/
def stripSentinelGo : Nat → List Char → List Char
  | _, [] => []
  | 0, l => l
  | fuel + 1, c :: rest =>
    if listStartsWith sentinelChars (c :: rest) then
      stripSentinelGo fuel ((c :: rest).drop sentinelChars.length)
    else
      c :: stripSentinelGo fuel rest

/-- Embedding of `translation.replace(/<\|endofcontent\|>/g, '')`
(src/main.js line 276): scan left to right, drop each non-overlapping
occurrence of the sentinel, and do not rescan the text produced by a
removal — exactly the JavaScript global-replace semantics. -/
def stripSentinel (l : List Char) : List Char :=
  stripSentinelGo l.length l

/-- Embedding of src/main.js lines 273-276: the optional
`choices[0].message.content` field of a successful response (`none` when
any link of the optional chain is missing, which `|| ""` turns into the
empty string), with every sentinel occurrence removed and the result
trimmed. -/
def normalizeContent (content : Option String) : String :=
  String.mk (jsTrimChars (stripSentinel ((content.getD "").toList)))

/-! ## Term matching (src/main.js lines 196-239)

The matcher builds, per stored term, the pattern `\b<escaped source>\b`
(regular-expression metacharacters of the source escaped, so the middle of
the pattern matches the source spelling literally) with the `i` flag unless
the term is case sensitive, and tests it against the input text.  The
embedding works on code-point sequences (`List Nat`), the view the
JavaScript regular-expression engine has of a BMP string, and expresses
`RegExp.test` for patterns of exactly this shape.  Pattern construction
from an escaped literal cannot throw, so the `catch (regexErr)` substring
fallback of lines 218-225 is unreachable and has no counterpart here. -/

/-- Code points of a string. -/
def toCodes (s : String) : List Nat := s.toList.map Char.toNat

/-- ASCII lowering applied by the `i` flag to the code points in play
(non-ASCII code points are unchanged, as in the engine's simple folding
for the characters occurring in this repository). -/
def jsLower (n : Nat) : Nat :=
  if 65 ≤ n ∧ n ≤ 90 then n + 32 else n

/-- The `\w` word-character class of a JavaScript regular expression
without the `u` flag: ASCII letters, digits and underscore.  CJK code
points are not word characters. -/
def isWordCode (n : Nat) : Bool :=
  decide ((65 ≤ n ∧ n ≤ 90) ∨ (97 ≤ n ∧ n ≤ 122) ∨ (48 ≤ n ∧ n ≤ 57) ∨ n = 95)

/-- Whether the code point at index `i` of `t` is a word character
(out-of-range indices count as non-word, the "string edge" case). -/
def wordAt (t : List Nat) (i : Nat) : Bool :=
  match t[i]? with
  | some n => isWordCode n
  | none => false

/-- The `\b` assertion of a JavaScript regular expression at position `p`
of text `t`: it holds exactly when the word-character status changes
between the character before `p` and the character at `p` (a string edge
counts as non-word). -/
def boundaryAt (t : List Nat) (p : Nat) : Bool :=
  (decide (p ≠ 0) && wordAt t (p - 1)) != wordAt t p

/-- Embedding of `new RegExp("\\b" + escapedSource + "\\b", flags).test(text)`
from src/main.js lines 211-217: some position `p` of the text carries a
`\b` boundary, is followed by the source spelling (case-folded unless the
term is case sensitive), and carries a `\b` boundary after the occurrence. -/
def jsWordBoundaryTest (source text : String) (caseSensitive : Bool) : Bool :=
  let s0 := toCodes source
  let t0 := toCodes text
  let s := if caseSensitive then s0 else s0.map jsLower
  let t := if caseSensitive then t0 else t0.map jsLower
  (List.range (t0.length + 1)).any (fun p =>
    listStartsWith s (t.drop p) && boundaryAt t0 p && boundaryAt t0 (p + s.length))

/-- Matching criterion in the words of the specification: an occurrence of
the term's spelling "bounded by non-word characters (or string edges) on
both sides".  Stated as a second definition only to be compared with the
code's `jsWordBoundaryTest`. -/
def specBoundedMatch (source text : String) (caseSensitive : Bool) : Bool :=
  let s0 := toCodes source
  let t0 := toCodes text
  let s := if caseSensitive then s0 else s0.map jsLower
  let t := if caseSensitive then t0 else t0.map jsLower
  (List.range (t0.length + 1)).any (fun p =>
    listStartsWith s (t.drop p)
      && (decide (p = 0) || !wordAt t0 (p - 1))
      && (decide (p + s.length = t0.length) || !wordAt t0 (p + s.length)))

/-- A row of the `terms` table: `SELECT source, target, case_sensitive
FROM terms` (the stored `case_sensitive` column is compared to `1` at
line 205, embedded here as a `Bool`). -/
structure TermRow where
  source : String
  target : String
  case_sensitive : Bool
  deriving DecidableEq, Repr

/-- Whether one stored term matches the input text (src/main.js
lines 203-225). -/
def termIsMatch (r : TermRow) (text : String) : Bool :=
  jsWordBoundaryTest r.source text r.case_sensitive

/-- The matching loop of src/main.js lines 203-233: walk the stored terms
in store order and push `{source, target}` for each match — the
`case_sensitive` flag is not forwarded. -/
def matchTerms (rows : List TermRow) (text : String) : List (String × String) :=
  rows.foldl
    (fun acc r => if termIsMatch r text then acc ++ [(r.source, r.target)] else acc) []

/-! ## Term store with migration (src/main.js lines 93-183) -/

/-- An entry of a legacy flat-JSON term file. -/
structure LegacyTerm where
  source : String
  target : String
  deriving DecidableEq, Repr

/-- What the file at the resolved terms path holds: nothing, a legacy JSON
array, an indexed (SQLite) term store, or content that is neither. -/
inductive TermsFileState
  | absent
  | legacyJson (terms : List LegacyTerm)
  | storeFile (rows : List TermRow)
  | corrupt
  deriving DecidableEq, Repr

/-- Collaborator outcomes for one terms-subsystem pass: whether the
`exists` probe, the `readTextFile`, the `Database.load` plus
`CREATE TABLE` pair, and the `SELECT` of all terms complete without
throwing.  Every one of these failures is caught in the source. -/
structure TermsWorld where
  file : TermsFileState
  existsOk : Bool
  readOk : Bool
  openOk : Bool
  selectOk : Bool
  deriving DecidableEq, Repr

/-- `INSERT OR IGNORE INTO terms (source, target) VALUES (?, ?)`
(src/main.js line 161): a row whose source is already present is silently
skipped, never overwritten; `case_sensitive` takes its schema default. -/
def insertOrIgnore (rows : List TermRow) (src tgt : String) : List TermRow :=
  if rows.any (fun r => r.source == src) then rows
  else rows ++ [⟨src, tgt, false⟩]

/-- The migration loop of src/main.js lines 157-169: insert each legacy
term having both a truthy source and a truthy target, ignoring
conflicts. -/
def migrateTerms (rows : List TermRow) (legacy : List LegacyTerm) : List TermRow :=
  legacy.foldl
    (fun acc t =>
      if t.source ≠ "" ∧ t.target ≠ "" then insertOrIgnore acc t.source t.target
      else acc)
    rows

/-- Result of `JSON.parse` on the file's content followed by the
`Array.isArray` check (src/main.js lines 116-123): only a legacy JSON
array yields term data. -/
def legacyParse (f : TermsFileState) : Option (List LegacyTerm) :=
  match f with
  | .legacyJson l => some l
  | _ => none

/-- Rows visible through a freshly opened store handle: an existing
indexed store exposes its rows; any other file content opens as an empty
(new) store. -/
def storeRows (f : TermsFileState) : List TermRow :=
  match f with
  | .storeFile rows => rows
  | _ => []

/-- The `exists` probe's answer when it does not throw. -/
def fileNotAbsent (f : TermsFileState) : Bool :=
  match f with
  | .absent => false
  | _ => true

/-- The whole terms-subsystem pass of src/main.js lines 97-183: detect a
legacy JSON file, open the path as an indexed store (collaborator outcome
`tw.openOk`; on failure the subsystem is disabled with a warning and the
file is untouched), ensure the schema, and run the migration when legacy
data was parsed.  Returns the rows now behind the open handle (`none`
when the subsystem is disabled) and the file state after the pass. -/
def loadTerms (termsFile : String) (tw : TermsWorld) : Option (List TermRow) × TermsFileState :=
  if termsFile ≠ "" ∧ jsTrim termsFile ≠ "" then
    let fileExists := tw.existsOk && fileNotAbsent tw.file
    let jsonTerms : Option (List LegacyTerm) :=
      if fileExists && tw.readOk then legacyParse tw.file else none
    if tw.openOk then
      let rows0 := storeRows tw.file
      let rows1 :=
        match jsonTerms with
        | some l => if l.length > 0 then migrateTerms rows0 l else rows0
        | none => rows0
      (some rows1, .storeFile rows1)
    else (none, tw.file)
  else (none, tw.file)

/-! ## Cache store and the orchestrator (src/main.js lines 44-299) -/

/-- A row of the `translations` table.  The table is unique on
`(source_text, source_lang, target_lang)`. -/
structure CacheEntry where
  source_text : String
  source_lang : String
  target_lang : String
  translated_text : String
  deriving DecidableEq, Repr

/-- Outcome of the cache-store setup of src/main.js lines 52-68:
`Database.load` and the `CREATE TABLE` both succeed (`ok`); the load
itself throws, leaving no handle (`openFail`); or the load succeeds and
the schema statement throws, leaving a handle that every later statement
fails on (`schemaFail`). -/
inductive CacheOpenOutcome
  | ok
  | openFail
  | schemaFail
  deriving DecidableEq, Repr

/-- The cache collaborator for one call: current rows plus the outcome
flags of the open/schema step, the `SELECT` and the `INSERT`. -/
structure CacheWorld where
  rows : List CacheEntry
  openOutcome : CacheOpenOutcome
  selectOk : Bool
  writeOk : Bool
  deriving DecidableEq, Repr

/-- Row predicate of the cache queries: `WHERE source_text = ? AND
source_lang = ? AND target_lang = ?`. -/
def cacheKeyMatches (e : CacheEntry) (text srcLang tgtLang : String) : Bool :=
  e.source_text == text && e.source_lang == srcLang && e.target_lang == tgtLang

/-- The cache `SELECT` of src/main.js lines 72-75 followed by the
`result.length > 0` test and the `result[0].translated_text` projection. -/
def cacheSelect (rows : List CacheEntry) (text srcLang tgtLang : String) : Option String :=
  ((rows.filter (fun e => cacheKeyMatches e text srcLang tgtLang)).head?).map
    (fun e => e.translated_text)

/-- `INSERT OR REPLACE INTO translations ...` (src/main.js lines 283-286):
the conflicting row for the key, if any, is removed and the fresh row
inserted. -/
def cacheUpsert (rows : List CacheEntry) (text srcLang tgtLang value : String) :
    List CacheEntry :=
  (rows.filter (fun e => !cacheKeyMatches e text srcLang tgtLang)) ++
    [⟨text, srcLang, tgtLang, value⟩]

/-- One translation option block of the outbound payload
(src/main.js lines 245-255). -/
structure TranslationOptions where
  source_lang : String
  target_lang : String
  temperature : ℚ
  terms : Option (List (String × String))
  domains : Option String
  deriving DecidableEq, Repr

/-- The outbound payload: `{ model, messages:[{role:"user",content:text}],
translation_options: {...} }` (src/main.js lines 189-266). -/
structure Payload where
  model : String
  userContent : String
  options : TranslationOptions
  deriving DecidableEq, Repr

/-- Payload assembly of src/main.js lines 189-255: `terms` is attached
only when at least one term matched, `domains` only when the
configuration value is truthy. -/
def buildPayload (model text srcLang tgtLang : String) (temp : ℚ)
    (matched : List (String × String)) (domains : String) : Payload :=
  { model := model
    userContent := text
    options :=
      { source_lang := srcLang
        target_lang := tgtLang
        temperature := temp
        terms := if matched.length > 0 then some matched else none
        domains := if domains ≠ "" then some domains else none } }

/-- The remote collaborator's answer to the single `fetch`: HTTP-level
success flag, status, the optional `choices[0].message.content` field of
the body, and the raw body as serialized by `JSON.stringify` for the
error message. -/
structure RemoteResponse where
  ok : Bool
  status : Nat
  content : Option String
  rawData : String
  deriving DecidableEq, Repr

/-- The configuration fields consumed by src/main.js lines 16-24.  String
fields model the host's string-typed settings with `""` for an
absent/falsy value; `temperature` keeps `Option` because an undefined
value behaves differently from a present string under `parseFloat`. -/
structure Config where
  model : String
  apiKey : String
  domains : String
  temperature : Option String
  termsFile : String
  databaseFile : String
  forceOnline : String
  deriving DecidableEq, Repr

/-- Everything observable about one `translate` call: the returned value
or thrown error, the cache rows and terms file after the call, how many
remote requests were issued, whether the term subsystem was engaged, and
the dispatched payload (`none` when no request was sent). -/
instance : DecidableEq (Except String String) := fun a b =>
  match a, b with
  | .ok x, .ok y =>
    if h : x = y then .isTrue (by rw [h]) else .isFalse (fun hc => h (Except.ok.inj hc))
  | .error x, .error y =>
    if h : x = y then .isTrue (by rw [h]) else .isFalse (fun hc => h (Except.error.inj hc))
  | .ok _, .error _ => .isFalse (fun hc => Except.noConfusion hc)
  | .error _, .ok _ => .isFalse (fun hc => Except.noConfusion hc)

structure TranslateOutcome where
  result : Except String String
  cacheRows : List CacheEntry
  termsFileAfter : TermsFileState
  remoteCalls : Nat
  termsResolved : Bool
  request : Option Payload
  deriving DecidableEq

/-- The terms actually injected into the request (src/main.js
lines 194-242): the matcher's output over the rows behind the open store
handle, or the empty list when the subsystem is disabled or the term
`SELECT` throws (the `matchedTerms` fallback of line 242). -/
def matchedTermsOf (cfg : Config) (text : String) (tw : TermsWorld) :
    List (String × String) :=
  match (loadTerms cfg.termsFile tw).1 with
  | some rows => if tw.selectOk then matchTerms rows text else []
  | none => []

/-- The cache-read step of src/main.js lines 50-86: a lookup happens only
when the cache feature is configured, the store opened and its schema was
created, force-online is unset, and the `SELECT` does not throw; every
other case — including a thrown `SELECT`, reported as a warning — falls
through to the online path as a miss. -/
def cacheLookup (cfg : Config) (text srcLang tgtLang : String) (cw : CacheWorld) :
    Option String :=
  if cfg.databaseFile ≠ "" ∧ jsTrim cfg.databaseFile ≠ "" ∧
      cw.openOutcome = CacheOpenOutcome.ok ∧ cfg.forceOnline ≠ "true" ∧
      cw.selectOk = true then
    cacheSelect cw.rows text srcLang tgtLang
  else none

/-- Shallow embedding of the whole `translate` of src/main.js.  A cache
hit returns at line 80 before the term subsystem runs.  Otherwise the
terms pass and the matcher produce the payload's terms, the single
`fetch` is issued, and on `res.ok` the normalized translation is written
back — but only when a handle exists, the schema was created, the
`INSERT` does not throw, and the translation is truthy (`if (db &&
translation)`, line 281; a write against a failed schema throws and is
caught, line 288, leaving the rows unchanged).  A non-ok response throws
the structured message of line 296. -/
def translateCall (cfg : Config) (text srcLang tgtLang : String)
    (cw : CacheWorld) (tw : TermsWorld) (resp : RemoteResponse) : TranslateOutcome :=
  match cacheLookup cfg text srcLang tgtLang cw with
  | some cached =>
    { result := .ok cached
      cacheRows := cw.rows
      termsFileAfter := tw.file
      remoteCalls := 0
      termsResolved := false
      request := none }
  | none =>
    let loaded := loadTerms cfg.termsFile tw
    let payload := buildPayload cfg.model text srcLang tgtLang
      (resolveTemperature cfg.temperature) (matchedTermsOf cfg text tw) cfg.domains
    if resp.ok then
      let translation := normalizeContent resp.content
      let rows' :=
        if cfg.databaseFile ≠ "" ∧ jsTrim cfg.databaseFile ≠ "" ∧
            cw.openOutcome = CacheOpenOutcome.ok ∧ cw.writeOk = true ∧
            translation ≠ "" then
          cacheUpsert cw.rows text srcLang tgtLang translation
        else cw.rows
      { result := .ok translation
        cacheRows := rows'
        termsFileAfter := loaded.2
        remoteCalls := 1
        termsResolved := loaded.1.isSome
        request := some payload }
    else
      { result := .error ("API Error " ++ toString resp.status ++ ": " ++ resp.rawData)
        cacheRows := cw.rows
        termsFileAfter := loaded.2
        remoteCalls := 1
        termsResolved := loaded.1.isSome
        request := some payload }

/-! ## Concrete fixtures used by witnesses and counterexamples -/

/-- A configuration with the cache enabled and force-online unset. -/
def cfgCache : Config := ⟨"qwen-mt-flash", "key", "", none, "", "cache.db", ""⟩

/-- The cache-enabled configuration with force-online set. -/
def cfgCacheForce : Config := ⟨"qwen-mt-flash", "key", "", none, "", "cache.db", "true"⟩

/-- A configuration whose temperature setting is the out-of-range "5". -/
def cfgTempFive : Config := ⟨"qwen-mt-flash", "key", "", some "5", "", "", ""⟩

/-- An empty cache whose collaborator calls all succeed. -/
def cwEmpty : CacheWorld := ⟨[], .ok, true, true⟩

/-- A healthy cache already holding a translation for ("hi", en→zh). -/
def cwOld : CacheWorld := ⟨[⟨"hi", "en", "zh", "old"⟩], .ok, true, true⟩

/-- A terms world with no terms file behind it. -/
def twNone : TermsWorld := ⟨.absent, true, true, true, true⟩

/-- A successful remote response with content "你好". -/
def respHello : RemoteResponse := ⟨true, 200, some "你好", "raw"⟩

/-- A successful remote response whose content normalizes to the empty
string. -/
def respSentinelOnly : RemoteResponse := ⟨true, 200, some "<|endofcontent|>", "raw"⟩

/-- A failed remote response. -/
def respFail : RemoteResponse := ⟨false, 500, none, "oops"⟩

/-! ## Helper lemmas -/

/-- Pointwise equal predicates give equal `any`. -/
theorem anyCongr {α : Type} (l : List α) (f g : α → Bool)
    (h : ∀ x ∈ l, f x = g x) : l.any f = l.any g := by
  induction l with
  | nil => rfl
  | cons a l ih =>
    simp only [List.any_cons, h a (by simp)]
    rw [ih (fun x hx => h x (by simp [hx]))]

/-- A successful prefix test pins down the first `pat.length` elements. -/
theorem listStartsWith_getElem {α : Type} [BEq α] [LawfulBEq α] :
    ∀ {pat l : List α}, listStartsWith pat l = true →
      ∀ j, j < pat.length → l[j]? = pat[j]? := by
  intro pat
  induction pat with
  | nil => intro l _ j hj; simp at hj
  | cons p ps ih =>
    intro l h j hj
    match l with
    | [] => simp [listStartsWith] at h
    | x :: xs =>
      simp only [listStartsWith, Bool.and_eq_true, beq_iff_eq] at h
      cases j with
      | zero => simp [h.1]
      | succ j =>
        simp only [List.getElem?_cons_succ]
        exact ih h.2 j (by simpa using hj)

/-- A list passes its own prefix test in front of any continuation. -/
theorem listStartsWith_self_append {α : Type} [BEq α] [LawfulBEq α]
    (pat rest : List α) : listStartsWith pat (pat ++ rest) = true := by
  induction pat with
  | nil => rfl
  | cons p ps ih => simp [listStartsWith, ih]

/-- ASCII case folding does not change membership in the `\w` class. -/
theorem isWordCode_jsLower (n : Nat) : isWordCode (jsLower n) = isWordCode n := by
  unfold jsLower isWordCode
  split
  · rename_i h
    rw [decide_eq_decide]
    omega
  · rfl

/-- Case folding a text leaves every position's word-character status
unchanged. -/
theorem wordAt_map_jsLower (t : List Nat) (i : Nat) :
    wordAt (t.map jsLower) i = wordAt t i := by
  unfold wordAt
  rw [List.getElem?_map]
  match t[i]? with
  | some n => exact isWordCode_jsLower n
  | none => rfl

/-- The scanner's result does not depend on the fuel once the fuel covers
the text's length. -/
theorem stripSentinelGo_fuel :
    ∀ (f1 f2 : Nat) (l : List Char), l.length ≤ f1 → l.length ≤ f2 →
      stripSentinelGo f1 l = stripSentinelGo f2 l := by
  intro f1
  induction f1 with
  | zero =>
    intro f2 l h1 _
    match l with
    | [] =>
      match f2 with
      | 0 => rfl
      | _ + 1 => rfl
    | _ :: _ => simp at h1
  | succ f1 ih =>
    intro f2 l h1 h2
    match l with
    | [] =>
      match f2 with
      | 0 => rfl
      | _ + 1 => rfl
    | c :: rest =>
      match f2 with
      | 0 => simp at h2
      | f2 + 1 =>
        simp only [stripSentinelGo]
        have h16 : sentinelChars.length = 16 := by decide
        by_cases hsw : listStartsWith sentinelChars (c :: rest) = true
        · rw [if_pos hsw, if_pos hsw]
          apply ih
          · simp only [List.length_drop, List.length_cons, h16]
            simp only [List.length_cons] at h1
            omega
          · simp only [List.length_drop, List.length_cons, h16]
            simp only [List.length_cons] at h2
            omega
        · rw [if_neg hsw, if_neg hsw]
          rw [ih f2 rest (by simpa using Nat.le_of_succ_le_succ (by simpa using h1))
            (by simpa using Nat.le_of_succ_le_succ (by simpa using h2))]

/-- Splitting a failed occurrence test over a cons cell. -/
theorem containsSub_cons_false {pat : List Char} {c : Char} {rest : List Char}
    (h : containsSub pat (c :: rest) = false) :
    listStartsWith pat (c :: rest) = false ∧ containsSub pat rest = false := by
  simpa [containsSub, Bool.or_eq_false_iff] using h

/-- A text without any sentinel occurrence is left unchanged by the
stripping pass. -/
theorem stripSentinel_of_not_contains :
    ∀ l : List Char, containsSub sentinelChars l = false → stripSentinel l = l := by
  have go : ∀ (fuel : Nat) (l : List Char), l.length ≤ fuel →
      containsSub sentinelChars l = false → stripSentinelGo fuel l = l := by
    intro fuel
    induction fuel with
    | zero =>
      intro l hl _
      match l with
      | [] => rfl
      | _ :: _ => simp at hl
    | succ fuel ih =>
      intro l hl h
      match l with
      | [] => rfl
      | c :: rest =>
        obtain ⟨h1, h2⟩ := containsSub_cons_false h
        simp only [stripSentinelGo, h1, Bool.false_eq_true, if_false]
        rw [ih rest (by simpa using Nat.le_of_succ_le_succ (by simpa using hl)) h2]
  intro l h
  exact go l.length l (Nat.le_refl _) h

/-- Stripping consumes a sentinel standing at the front of the text. -/
theorem stripSentinel_sentinel_append (l : List Char) :
    stripSentinel (sentinelChars ++ l) = stripSentinel l := by
  have hsw : listStartsWith sentinelChars (sentinelChars ++ l) = true :=
    listStartsWith_self_append _ _
  have hshape : sentinelChars ++ l =
      '<' :: ("|endofcontent|>".toList ++ l) := rfl
  have hdrop : (sentinelChars ++ l).drop sentinelChars.length = l :=
    List.drop_left _ _
  have h16 : sentinelChars.length = 16 := by decide
  have hlen : (sentinelChars ++ l).length = l.length + 16 := by
    rw [List.length_append, h16]
    omega
  unfold stripSentinel
  rw [hlen]
  rw [hshape]
  simp only [stripSentinelGo]
  rw [if_pos (by rw [← hshape]; exact hsw)]
  rw [← hshape, hdrop]
  exact stripSentinelGo_fuel _ _ l (by omega) (Nat.le_refl _)

/-- The fresh row of an upsert is found by the following lookup for the
same key. -/
theorem cacheSelect_upsert (rows : List CacheEntry) (text srcLang tgtLang value : String) :
    cacheSelect (cacheUpsert rows text srcLang tgtLang value) text srcLang tgtLang =
      some value := by
  unfold cacheSelect cacheUpsert
  rw [List.filter_append]
  have h1 : (rows.filter (fun e => !cacheKeyMatches e text srcLang tgtLang)).filter
      (fun e => cacheKeyMatches e text srcLang tgtLang) = [] := by
    induction rows with
    | nil => rfl
    | cons a l ih =>
      by_cases hc : cacheKeyMatches a text srcLang tgtLang = true
      · simp [List.filter_cons, hc, ih]
      · simp only [Bool.not_eq_true] at hc
        simp [List.filter_cons, hc, ih]
  rw [h1]
  simp [cacheKeyMatches]

/-- An upsert never leaves two rows for its key: afterwards the rows
matching the key are exactly the fresh row. -/
theorem cacheUpsert_unique (rows : List CacheEntry) (text srcLang tgtLang value : String) :
    (cacheUpsert rows text srcLang tgtLang value).filter
      (fun e => cacheKeyMatches e text srcLang tgtLang) =
      [⟨text, srcLang, tgtLang, value⟩] := by
  unfold cacheUpsert
  rw [List.filter_append]
  have h1 : (rows.filter (fun e => !cacheKeyMatches e text srcLang tgtLang)).filter
      (fun e => cacheKeyMatches e text srcLang tgtLang) = [] := by
    induction rows with
    | nil => rfl
    | cons a l ih =>
      by_cases hc : cacheKeyMatches a text srcLang tgtLang = true
      · simp [List.filter_cons, hc, ih]
      · simp only [Bool.not_eq_true] at hc
        simp [List.filter_cons, hc, ih]
  rw [h1]
  simp [cacheKeyMatches]

/-- The matcher loop is the ordered filter of the store rows, projected to
`(source, target)`. -/
theorem matchTerms_eq_filter (rows : List TermRow) (text : String) :
    matchTerms rows text =
      (rows.filter (fun r => termIsMatch r text)).map (fun r => (r.source, r.target)) := by
  have go : ∀ (rs : List TermRow) (acc : List (String × String)),
      rs.foldl (fun acc r =>
        if termIsMatch r text then acc ++ [(r.source, r.target)] else acc) acc =
      acc ++ (rs.filter (fun r => termIsMatch r text)).map (fun r => (r.source, r.target)) := by
    intro rs
    induction rs with
    | nil => intro acc; simp
    | cons r rs ih =>
      intro acc
      by_cases hr : termIsMatch r text = true
      · simp [List.foldl_cons, List.filter_cons, hr, ih]
      · simp only [Bool.not_eq_true] at hr
        simp [List.foldl_cons, List.filter_cons, hr, ih]
  simpa using go rows []

/-- Ignore-on-conflict insertion preserves distinctness of the stored
source spellings. -/
theorem insertOrIgnore_nodup {rows : List TermRow}
    (h : (rows.map TermRow.source).Nodup) (src tgt : String) :
    ((insertOrIgnore rows src tgt).map TermRow.source).Nodup := by
  unfold insertOrIgnore
  split
  · exact h
  · rename_i hna
    rw [List.map_append]
    simp only [List.map_cons, List.map_nil]
    rw [List.nodup_middle]
    rw [List.nodup_cons]
    constructor
    · intro hmem
      rw [List.append_nil] at hmem
      obtain ⟨r, hr, hrs⟩ := List.mem_map.mp hmem
      have : rows.any (fun r => r.source == src) = true :=
        List.any_eq_true.mpr ⟨r, hr, by simp [hrs]⟩
      simp [this] at hna
    · simpa using h

/-- The migration loop preserves distinctness of the stored source
spellings. -/
theorem migrateTerms_nodup :
    ∀ (legacy : List LegacyTerm) {rows : List TermRow},
      (rows.map TermRow.source).Nodup →
      ((migrateTerms rows legacy).map TermRow.source).Nodup := by
  intro legacy
  induction legacy with
  | nil => intro rows h; exact h
  | cons t ts ih =>
    intro rows h
    unfold migrateTerms
    simp only [List.foldl_cons]
    by_cases hc : t.source ≠ "" ∧ t.target ≠ ""
    · rw [if_pos hc]
      exact ih (insertOrIgnore_nodup h t.source t.target)
    · rw [if_neg hc]
      exact ih h

/-- A cache hit can only report a value the `SELECT` produced. -/
theorem cacheLookup_eq_some {cfg : Config} {text srcLang tgtLang : String}
    {cw : CacheWorld} {v : String}
    (h : cacheLookup cfg text srcLang tgtLang cw = some v) :
    cacheSelect cw.rows text srcLang tgtLang = some v := by
  unfold cacheLookup at h
  split at h
  · exact h
  · exact absurd h (by simp)

/-- When every cache-read precondition holds, the lookup is exactly the
`SELECT`. -/
theorem cacheLookup_pos {cfg : Config} {cw : CacheWorld} (text srcLang tgtLang : String)
    (h1 : cfg.databaseFile ≠ "") (h2 : jsTrim cfg.databaseFile ≠ "")
    (h3 : cw.openOutcome = CacheOpenOutcome.ok) (h4 : cfg.forceOnline ≠ "true")
    (h5 : cw.selectOk = true) :
    cacheLookup cfg text srcLang tgtLang cw = cacheSelect cw.rows text srcLang tgtLang := by
  unfold cacheLookup
  rw [if_pos ⟨h1, h2, h3, h4, h5⟩]

/-- On a cache hit the call is terminal: the cached text is returned, no
request is dispatched, the term subsystem never runs, and nothing is
written. -/
theorem translateCall_hit {cfg : Config} {text srcLang tgtLang : String} {cw : CacheWorld}
    (tw : TermsWorld) (resp : RemoteResponse) {v : String}
    (h : cacheLookup cfg text srcLang tgtLang cw = some v) :
    translateCall cfg text srcLang tgtLang cw tw resp =
      ⟨.ok v, cw.rows, tw.file, 0, false, none⟩ := by
  unfold translateCall
  rw [h]

/-- Shape of a call that misses the cache and gets a successful remote
response. -/
theorem translateCall_miss_ok {cfg : Config} {text srcLang tgtLang : String}
    {cw : CacheWorld} (tw : TermsWorld) {resp : RemoteResponse}
    (hmiss : cacheLookup cfg text srcLang tgtLang cw = none) (hok : resp.ok = true) :
    translateCall cfg text srcLang tgtLang cw tw resp =
      { result := .ok (normalizeContent resp.content)
        cacheRows :=
          if cfg.databaseFile ≠ "" ∧ jsTrim cfg.databaseFile ≠ "" ∧
              cw.openOutcome = CacheOpenOutcome.ok ∧ cw.writeOk = true ∧
              normalizeContent resp.content ≠ "" then
            cacheUpsert cw.rows text srcLang tgtLang (normalizeContent resp.content)
          else cw.rows
        termsFileAfter := (loadTerms cfg.termsFile tw).2
        remoteCalls := 1
        termsResolved := (loadTerms cfg.termsFile tw).1.isSome
        request := some (buildPayload cfg.model text srcLang tgtLang
          (resolveTemperature cfg.temperature) (matchedTermsOf cfg text tw) cfg.domains) } := by
  unfold translateCall
  rw [hmiss]
  simp only [hok, if_true]

/-- Shape of a call that misses the cache and gets a failed remote
response: the thrown message carries the status and raw body, and the
cache rows are untouched. -/
theorem translateCall_miss_error {cfg : Config} {text srcLang tgtLang : String}
    {cw : CacheWorld} (tw : TermsWorld) {resp : RemoteResponse}
    (hmiss : cacheLookup cfg text srcLang tgtLang cw = none) (hok : resp.ok = false) :
    translateCall cfg text srcLang tgtLang cw tw resp =
      { result := .error ("API Error " ++ toString resp.status ++ ": " ++ resp.rawData)
        cacheRows := cw.rows
        termsFileAfter := (loadTerms cfg.termsFile tw).2
        remoteCalls := 1
        termsResolved := (loadTerms cfg.termsFile tw).1.isSome
        request := some (buildPayload cfg.model text srcLang tgtLang
          (resolveTemperature cfg.temperature) (matchedTermsOf cfg text tw) cfg.domains) } := by
  unfold translateCall
  rw [hmiss]
  simp only [hok, Bool.false_eq_true, if_false]

/-- At every candidate position whose following text carries the (folded)
source spelling, the two `\b` assertions of the code's pattern agree with
the specification's bounded-by-non-word-or-edge reading, provided the
spelling begins and ends with word characters. -/
theorem boundary_core (s t0 t : List Nat)
    (ht : t = t0 ∨ t = t0.map jsLower)
    (a b : Nat) (hh : s.head? = some a) (hl : s.getLast? = some b)
    (ha : isWordCode a = true) (hb : isWordCode b = true) (p : Nat) :
    (listStartsWith s (t.drop p) && boundaryAt t0 p && boundaryAt t0 (p + s.length)) =
    (listStartsWith s (t.drop p)
      && (decide (p = 0) || !wordAt t0 (p - 1))
      && (decide (p + s.length = t0.length) || !wordAt t0 (p + s.length))) := by
  by_cases hpre : listStartsWith s (t.drop p) = true
  · have hslen : 1 ≤ s.length := by
      cases s with
      | nil => simp at hh
      | cons x xs => simp
    have hwp : wordAt t p = true := by
      have h0 : (t.drop p)[0]? = s[0]? := listStartsWith_getElem hpre 0 (by omega)
      rw [List.getElem?_drop] at h0
      have hs0 : s[0]? = some a := by rw [← List.head?_eq_getElem? s]; exact hh
      unfold wordAt
      rw [Nat.add_zero] at h0
      rw [h0, hs0]
      exact ha
    have hwe : wordAt t (p + s.length - 1) = true := by
      have hj : (t.drop p)[s.length - 1]? = s[s.length - 1]? :=
        listStartsWith_getElem hpre (s.length - 1) (by omega)
      rw [List.getElem?_drop] at hj
      have hsl : s[s.length - 1]? = some b := by
        rw [← List.getLast?_eq_getElem? s]; exact hl
      have harith : p + (s.length - 1) = p + s.length - 1 := by omega
      rw [harith] at hj
      unfold wordAt
      rw [hj, hsl]
      exact hb
    have htp : wordAt t0 p = true := by
      rcases ht with h | h
      · rw [← h]; exact hwp
      · rw [← wordAt_map_jsLower t0 p, ← h]; exact hwp
    have hte : wordAt t0 (p + s.length - 1) = true := by
      rcases ht with h | h
      · rw [← h]; exact hwe
      · rw [← wordAt_map_jsLower t0 (p + s.length - 1), ← h]; exact hwe
    have hb1 : boundaryAt t0 p = (decide (p = 0) || !wordAt t0 (p - 1)) := by
      unfold boundaryAt
      rw [htp, decide_not]
      generalize decide (p = 0) = d
      generalize wordAt t0 (p - 1) = w
      cases d <;> cases w <;> rfl
    have hb2 : boundaryAt t0 (p + s.length) =
        (decide (p + s.length = t0.length) || !wordAt t0 (p + s.length)) := by
      unfold boundaryAt
      have hq0 : decide (p + s.length ≠ 0) = true := by
        rw [decide_eq_true_eq]; omega
      rw [hq0, hte]
      by_cases hq : p + s.length = t0.length
      · have hnone : wordAt t0 (p + s.length) = false := by
          unfold wordAt
          rw [List.getElem?_eq_none (by omega)]
        rw [hnone, decide_eq_true hq]
        rfl
      · rw [decide_eq_false hq]
        generalize wordAt t0 (p + s.length) = w
        cases w <;> rfl
    rw [hb1, hb2]
  · rw [Bool.not_eq_true] at hpre
    rw [hpre]
    simp

/-! ## Claim theorems -/

/-- C2, counterexample: the claim says a configured temperature outside
[0, 2) such as "5" resolves to 0.65 in the outbound request; in
src/main.js it resolves to 5 — `parseFloat("5") || 0.65` keeps 5 — and 5
is what the dispatched payload carries. -/
theorem temperature_out_of_range_cex :
    resolveTemperature (some "5") = 5 ∧
    resolveTemperature (some "5") ≠ 0.65 ∧
    (translateCall cfgTempFive "hi" "en" "zh" cwEmpty twNone respHello).request =
      some (buildPayload "qwen-mt-flash" "hi" "en" "zh" 5 [] "") := by
  refine ⟨by with_unfolding_all rfl, by with_unfolding_all decide, by with_unfolding_all rfl⟩

/-- C2, amended: in src/main.js an empty or non-numeric configured
temperature resolves to 0.65 and a numeric string resolves to its value
with no range check ("1.5" to 1.5, "5" to 5; "0" also falls back to 0.65
because JavaScript `||` treats 0 as falsy); only the part_001 variant
clamps, resolving "5" to 0.65.  The temperature placed in any dispatched
request is exactly `resolveTemperature` of the configured value. -/
theorem temperature_resolution :
    resolveTemperature none = 0.65 ∧
    resolveTemperature (some "") = 0.65 ∧
    resolveTemperature (some "abc") = 0.65 ∧
    resolveTemperature (some "1.5") = 1.5 ∧
    resolveTemperature (some "5") = 5 ∧
    resolveTemperature (some "0") = 0.65 ∧
    resolveTemperatureClamped (some "") = 0.65 ∧
    resolveTemperatureClamped (some "abc") = 0.65 ∧
    resolveTemperatureClamped (some "1.5") = 1.5 ∧
    resolveTemperatureClamped (some "5") = 0.65 ∧
    (∀ (cfg : Config) (text srcLang tgtLang : String) (cw : CacheWorld)
        (tw : TermsWorld) (resp : RemoteResponse) (p : Payload),
      (translateCall cfg text srcLang tgtLang cw tw resp).request = some p →
      p.options.temperature = resolveTemperature cfg.temperature) := by
  refine ⟨by with_unfolding_all rfl, by with_unfolding_all rfl, by with_unfolding_all rfl,
    by with_unfolding_all rfl, by with_unfolding_all rfl, by with_unfolding_all rfl,
    by with_unfolding_all rfl, by with_unfolding_all rfl, by with_unfolding_all rfl,
    by with_unfolding_all rfl, ?_⟩
  intro cfg text srcLang tgtLang cw tw resp p hreq
  cases hl : cacheLookup cfg text srcLang tgtLang cw with
  | some v =>
    rw [translateCall_hit tw resp hl] at hreq
    exact absurd hreq (by simp)
  | none =>
    cases hok : resp.ok with
    | true =>
      rw [translateCall_miss_ok tw hl hok] at hreq
      simp only [Option.some.injEq] at hreq
      rw [← hreq]
      rfl
    | false =>
      rw [translateCall_miss_error tw hl hok] at hreq
      simp only [Option.some.injEq] at hreq
      rw [← hreq]
      rfl

/-- C2 witness: the general request-temperature conjunct applied at the
"5" configuration. -/
theorem temperature_resolution_witness :
    (buildPayload "qwen-mt-flash" "hi" "en" "zh" 5 [] "").options.temperature =
      resolveTemperature cfgTempFive.temperature :=
  temperature_resolution.2.2.2.2.2.2.2.2.2.2 cfgTempFive "hi" "en" "zh" cwEmpty twNone
    respHello (buildPayload "qwen-mt-flash" "hi" "en" "zh" 5 [] "") (by with_unfolding_all rfl)

/-- C5: the matcher returns the ordered subsequence, in store order, of
the stored terms occurring in the text, projected to (source, target)
with the case-sensitivity flag not forwarded; in particular
{GPU, case-insensitive} matches "I bought a gpu" but not "agpu123", and
{API, case-sensitive} matches "this is an API" but not "this is an api". -/
theorem term_matching_correct :
    (∀ (rows : List TermRow) (text : String),
      matchTerms rows text =
        (rows.filter (fun r => termIsMatch r text)).map (fun r => (r.source, r.target))) ∧
    matchTerms [⟨"GPU", "显卡", false⟩] "I bought a gpu" = [("GPU", "显卡")] ∧
    matchTerms [⟨"GPU", "显卡", false⟩] "agpu123" = [] ∧
    matchTerms [⟨"API", "接口", true⟩] "this is an api" = [] ∧
    matchTerms [⟨"API", "接口", true⟩] "this is an API" = [("API", "接口")] :=
  ⟨matchTerms_eq_filter, by decide, by decide, by decide, by decide⟩

/-- C8: normalization returns the empty string for a missing content
field, strips each sentinel occurrence, trims surrounding whitespace —
"你好<|endofcontent|>  " normalizes to "你好" — and is exactly the
strip-then-trim composition and nothing more. -/
theorem normalize_response :
    normalizeContent none = "" ∧
    normalizeContent (some "") = "" ∧
    normalizeContent (some "你好<|endofcontent|>  ") = "你好" ∧
    (∀ s : String, containsSub sentinelChars s.toList = false →
      stripSentinel s.toList = s.toList) ∧
    (∀ l : List Char, stripSentinel (sentinelChars ++ l) = stripSentinel l) ∧
    (∀ content : Option String,
      normalizeContent content =
        String.mk (jsTrimChars (stripSentinel ((content.getD "").toList)))) :=
  ⟨rfl, rfl, by decide, fun s h => stripSentinel_of_not_contains s.toList h,
    stripSentinel_sentinel_append, fun _ => rfl⟩

/-- C8 witness: the no-occurrence conjunct applied to a sentinel-free
string. -/
theorem normalize_response_witness :
    stripSentinel "abc".toList = "abc".toList :=
  normalize_response.2.2.2.1 "abc" (by decide)

/-- C6: loading a legacy file [{"source":"CPU","target":"处理器"}] leaves
exactly one CPU row in the indexed store; entries with an empty source or
target are not inserted; duplicate sources keep the first row
(ignore-on-conflict); a second load over the migrated store re-runs no
migration insert; and for every legacy file the migrated store's source
spellings are distinct. -/
theorem term_migration_correct :
    loadTerms "terms.json" ⟨.legacyJson [⟨"CPU", "处理器"⟩], true, true, true, true⟩ =
      (some [⟨"CPU", "处理器", false⟩], .storeFile [⟨"CPU", "处理器", false⟩]) ∧
    loadTerms "terms.json" ⟨.storeFile [⟨"CPU", "处理器", false⟩], true, true, true, true⟩ =
      (some [⟨"CPU", "处理器", false⟩], .storeFile [⟨"CPU", "处理器", false⟩]) ∧
    loadTerms "terms.json" ⟨.legacyJson [⟨"", "x"⟩, ⟨"y", ""⟩], true, true, true, true⟩ =
      (some [], .storeFile []) ∧
    loadTerms "terms.json" ⟨.legacyJson [⟨"CPU", "a"⟩, ⟨"CPU", "b"⟩], true, true, true, true⟩ =
      (some [⟨"CPU", "a", false⟩], .storeFile [⟨"CPU", "a", false⟩]) ∧
    (∀ legacy : List LegacyTerm,
      (loadTerms "terms.json" ⟨.legacyJson legacy, true, true, true, true⟩).1 =
        some (migrateTerms [] legacy) ∧
      ((migrateTerms [] legacy).map TermRow.source).Nodup ∧
      (loadTerms "terms.json"
        ⟨.storeFile (migrateTerms [] legacy), true, true, true, true⟩).1 =
        some (migrateTerms [] legacy)) := by
  have hcond : ("terms.json" : String) ≠ "" ∧ jsTrim "terms.json" ≠ "" := by decide
  refine ⟨by decide, by decide, by decide, by decide, ?_⟩
  intro legacy
  refine ⟨?_, migrateTerms_nodup legacy (by simp), ?_⟩
  · unfold loadTerms
    rw [if_pos hcond]
    by_cases hlen : legacy.length > 0
    · simp [fileNotAbsent, legacyParse, storeRows, hlen]
    · have hnil : legacy = [] := List.length_eq_zero.mp (by omega)
      subst hnil
      simp [fileNotAbsent, legacyParse, storeRows, migrateTerms]
  · unfold loadTerms
    rw [if_pos hcond]
    simp [fileNotAbsent, legacyParse, storeRows]

/-- C9, counterexample: the claim says a term matches exactly when an
occurrence is bounded by non-word characters or string edges on both
sides, including for purely CJK spellings.  For source "处理器" and text
"处理器" the occurrence is bounded by both string edges, so the claimed
criterion matches, but the code's `\b处理器\b` pattern does not: CJK code
points are non-word for `\b`, so no boundary exists at either end. -/
theorem cjk_word_boundary_cex :
    specBoundedMatch "处理器" "处理器" false = true ∧
    termIsMatch ⟨"处理器", "processor", false⟩ "处理器" = false ∧
    specBoundedMatch "处理器" " 处理器 " false = true ∧
    termIsMatch ⟨"处理器", "processor", false⟩ " 处理器 " = false ∧
    matchTerms [⟨"处理器", "processor", false⟩] "处理器" = [] := by
  refine ⟨by decide, by decide, by decide, by decide, by decide⟩

/-- C9, amended: the matcher's criterion is the `\b` transition criterion
— an occurrence whose two ends each sit at a word/non-word transition of
the text.  For a source spelling that begins and ends with word
characters this coincides with the claimed bounded-by-non-word-or-edges
criterion; a spelling that begins or ends with a non-word character (such
as a purely CJK term) instead requires an adjacent word character there,
so it does not match when surrounded by spaces, CJK characters or string
edges, and does match when directly adjacent to ASCII word characters. -/
theorem word_boundary_criterion :
    (∀ (source text : String) (cs : Bool) (a b : Nat),
      (toCodes source).head? = some a →
      (toCodes source).getLast? = some b →
      isWordCode a = true → isWordCode b = true →
      jsWordBoundaryTest source text cs = specBoundedMatch source text cs) ∧
    termIsMatch ⟨"处理器", "processor", false⟩ "a处理器b" = true ∧
    termIsMatch ⟨"处理器", "processor", false⟩ "x 处理器 y" = false := by
  refine ⟨?_, by decide, by decide⟩
  intro source text cs a b hh hl ha hb
  cases cs with
  | true =>
    simp only [jsWordBoundaryTest, specBoundedMatch, if_true]
    apply anyCongr
    intro p _
    exact boundary_core (toCodes source) (toCodes text) (toCodes text) (Or.inl rfl)
      a b hh hl ha hb p
  | false =>
    simp only [jsWordBoundaryTest, specBoundedMatch, Bool.false_eq_true, if_false]
    apply anyCongr
    intro p _
    refine boundary_core ((toCodes source).map jsLower) (toCodes text)
      ((toCodes text).map jsLower) (Or.inr rfl) (jsLower a) (jsLower b) ?_ ?_ ?_ ?_ p
    · rw [List.head?_map, hh]
      rfl
    · rw [List.getLast?_map, hl]
      rfl
    · rw [isWordCode_jsLower]
      exact ha
    · rw [isWordCode_jsLower]
      exact hb

/-- C9 witness: the equivalence applied to the word-character-delimited
source "GPU" over the text of the matching example. -/
theorem word_boundary_criterion_witness :
    jsWordBoundaryTest "GPU" "I bought a gpu" false =
      specBoundedMatch "GPU" "I bought a gpu" false :=
  word_boundary_criterion.1 "GPU" "I bought a gpu" false 71 85
    (by decide) (by decide) (by decide) (by decide)

/-- C4: when the cache store cannot be opened or its schema cannot be
created, the call still completes: the remote call's normalized result is
returned, exactly one request is dispatched, and the stored rows are left
untouched. -/
theorem cache_fail_open (cfg : Config) (text srcLang tgtLang : String) (cw : CacheWorld)
    (tw : TermsWorld) (resp : RemoteResponse)
    (hout : cw.openOutcome ≠ CacheOpenOutcome.ok) (hok : resp.ok = true) :
    (translateCall cfg text srcLang tgtLang cw tw resp).result =
      .ok (normalizeContent resp.content) ∧
    (translateCall cfg text srcLang tgtLang cw tw resp).remoteCalls = 1 ∧
    (translateCall cfg text srcLang tgtLang cw tw resp).cacheRows = cw.rows := by
  have hmiss : cacheLookup cfg text srcLang tgtLang cw = none := by
    unfold cacheLookup
    rw [if_neg (fun hc => hout hc.2.2.1)]
  rw [translateCall_miss_ok tw hmiss hok]
  exact ⟨rfl, rfl, if_neg (fun hc => hout hc.2.2.1)⟩

/-- C4 witness: a store whose open fails, holding a row that would have
been a hit, still yields the remote result. -/
theorem cache_fail_open_witness :
    (translateCall cfgCache "hi" "en" "zh" ⟨[⟨"hi", "en", "zh", "old"⟩], .openFail, true, true⟩
      twNone respHello).result = .ok (normalizeContent respHello.content) ∧
    (translateCall cfgCache "hi" "en" "zh" ⟨[⟨"hi", "en", "zh", "old"⟩], .openFail, true, true⟩
      twNone respHello).remoteCalls = 1 ∧
    (translateCall cfgCache "hi" "en" "zh" ⟨[⟨"hi", "en", "zh", "old"⟩], .openFail, true, true⟩
      twNone respHello).cacheRows = [⟨"hi", "en", "zh", "old"⟩] :=
  cache_fail_open cfgCache "hi" "en" "zh" ⟨[⟨"hi", "en", "zh", "old"⟩], .openFail, true, true⟩
    twNone respHello (by decide) rfl

/-- C3: a thrown error always is the structured message carrying the HTTP
status and raw body of a non-ok remote response; a non-ok response on the
online path always throws it; and every call either reaches the remote
call or terminates as a cache hit returning a value the cache `SELECT`
produced — no store or file failure flag can produce an error. -/
theorem remote_error_only (cfg : Config) (text srcLang tgtLang : String)
    (cw : CacheWorld) (tw : TermsWorld) (resp : RemoteResponse) :
    (∀ e, (translateCall cfg text srcLang tgtLang cw tw resp).result = .error e →
      resp.ok = false ∧
      (translateCall cfg text srcLang tgtLang cw tw resp).remoteCalls = 1 ∧
      e = "API Error " ++ toString resp.status ++ ": " ++ resp.rawData) ∧
    (resp.ok = false →
      (translateCall cfg text srcLang tgtLang cw tw resp).remoteCalls = 1 →
      (translateCall cfg text srcLang tgtLang cw tw resp).result =
        .error ("API Error " ++ toString resp.status ++ ": " ++ resp.rawData)) ∧
    ((translateCall cfg text srcLang tgtLang cw tw resp).remoteCalls = 1 ∨
      ∃ v, cacheSelect cw.rows text srcLang tgtLang = some v ∧
        (translateCall cfg text srcLang tgtLang cw tw resp).result = .ok v ∧
        (translateCall cfg text srcLang tgtLang cw tw resp).remoteCalls = 0) := by
  cases hl : cacheLookup cfg text srcLang tgtLang cw with
  | some v =>
    rw [translateCall_hit tw resp hl]
    refine ⟨?_, ?_, Or.inr ⟨v, cacheLookup_eq_some hl, rfl, rfl⟩⟩
    · intro e he
      exact absurd he (by simp)
    · intro _ h1
      exact absurd h1 (by simp)
  | none =>
    cases hok : resp.ok with
    | true =>
      rw [translateCall_miss_ok tw hl hok]
      refine ⟨?_, ?_, Or.inl rfl⟩
      · intro e he
        exact absurd he (by simp)
      · intro hfalse _
        exact absurd hfalse (by simp)
    | false =>
      rw [translateCall_miss_error tw hl hok]
      refine ⟨?_, fun _ _ => rfl, Or.inl rfl⟩
      intro e he
      exact ⟨rfl, rfl, (Except.error.inj he).symm⟩

/-- C3 witness: the guaranteed-throw conjunct applied to a failing
response. -/
theorem remote_error_only_witness :
    (translateCall cfgCache "hi" "en" "zh" cwEmpty twNone respFail).result =
      .error ("API Error " ++ toString respFail.status ++ ": " ++ respFail.rawData) :=
  (remote_error_only cfgCache "hi" "en" "zh" cwEmpty twNone respFail).2.1 rfl (by decide)

/-- C10: when the remote call succeeds but the normalized translation is
empty, the write-back is skipped — the stored rows are exactly the rows
before the call — while the empty string is still returned. -/
theorem empty_translation_no_writeback (cfg : Config) (text srcLang tgtLang : String)
    (cw : CacheWorld) (tw : TermsWorld) (resp : RemoteResponse)
    (hok : resp.ok = true) (hempty : normalizeContent resp.content = "")
    (hmiss : cacheLookup cfg text srcLang tgtLang cw = none) :
    (translateCall cfg text srcLang tgtLang cw tw resp).result = .ok "" ∧
    (translateCall cfg text srcLang tgtLang cw tw resp).cacheRows = cw.rows ∧
    (translateCall cfg text srcLang tgtLang cw tw resp).remoteCalls = 1 := by
  rw [translateCall_miss_ok tw hmiss hok]
  refine ⟨?_, ?_, rfl⟩
  · show Except.ok (normalizeContent resp.content) = Except.ok ""
    rw [hempty]
  · exact if_neg (fun hc => hc.2.2.2.2 hempty)

/-- C10 witness: a sentinel-only response leaves an empty cache empty and
returns the empty string. -/
theorem empty_translation_no_writeback_witness :
    (translateCall cfgCache "hi" "en" "zh" cwEmpty twNone respSentinelOnly).result = .ok "" ∧
    (translateCall cfgCache "hi" "en" "zh" cwEmpty twNone respSentinelOnly).cacheRows =
      cwEmpty.rows ∧
    (translateCall cfgCache "hi" "en" "zh" cwEmpty twNone respSentinelOnly).remoteCalls = 1 :=
  empty_translation_no_writeback cfgCache "hi" "en" "zh" cwEmpty twNone respSentinelOnly
    rfl (by decide) (by decide)

/-- C7, counterexample: the claim says that with force-online set, after
a successful remote call the entry for the key is still upserted,
replacing any existing translated text.  A successful response whose
content normalizes to the empty string refutes this: the call succeeds
and returns "", yet the pre-existing entry "old" is left in place
unreplaced, because write-back requires a truthy translation. -/
theorem force_online_empty_cex :
    (translateCall cfgCacheForce "hi" "en" "zh" cwOld twNone respSentinelOnly).result =
      .ok "" ∧
    (translateCall cfgCacheForce "hi" "en" "zh" cwOld twNone respSentinelOnly).remoteCalls = 1 ∧
    (translateCall cfgCacheForce "hi" "en" "zh" cwOld twNone respSentinelOnly).cacheRows =
      [⟨"hi", "en", "zh", "old"⟩] ∧
    cacheSelect (translateCall cfgCacheForce "hi" "en" "zh" cwOld twNone
      respSentinelOnly).cacheRows "hi" "en" "zh" = some "old" :=
  ⟨by decide, by decide, by decide, by decide⟩

/-- C7, amended: with force-online set and an open store, the cache read
is skipped — exactly one remote call happens and the remote result, not
the cached one, is returned — and write-back stays enabled: after a
successful remote call whose normalized translation is nonempty and whose
cache write does not fail, the entry for the key is upserted, replacing
any existing translated text (afterwards the key's rows are exactly the
fresh row). -/
theorem force_online_bypass (cfg : Config) (text srcLang tgtLang : String)
    (cw : CacheWorld) (tw : TermsWorld) (resp : RemoteResponse)
    (hforce : cfg.forceOnline = "true")
    (hdb : cfg.databaseFile ≠ "") (hdbt : jsTrim cfg.databaseFile ≠ "")
    (hout : cw.openOutcome = CacheOpenOutcome.ok) (hw : cw.writeOk = true)
    (hok : resp.ok = true) (hne : normalizeContent resp.content ≠ "") :
    (translateCall cfg text srcLang tgtLang cw tw resp).remoteCalls = 1 ∧
    (translateCall cfg text srcLang tgtLang cw tw resp).result =
      .ok (normalizeContent resp.content) ∧
    (translateCall cfg text srcLang tgtLang cw tw resp).cacheRows =
      cacheUpsert cw.rows text srcLang tgtLang (normalizeContent resp.content) ∧
    cacheSelect (translateCall cfg text srcLang tgtLang cw tw resp).cacheRows
      text srcLang tgtLang = some (normalizeContent resp.content) ∧
    (translateCall cfg text srcLang tgtLang cw tw resp).cacheRows.filter
      (fun e => cacheKeyMatches e text srcLang tgtLang) =
      [⟨text, srcLang, tgtLang, normalizeContent resp.content⟩] := by
  have hmiss : cacheLookup cfg text srcLang tgtLang cw = none := by
    unfold cacheLookup
    rw [if_neg (fun hc => hc.2.2.2.1 hforce)]
  have hcr : (translateCall cfg text srcLang tgtLang cw tw resp).cacheRows =
      cacheUpsert cw.rows text srcLang tgtLang (normalizeContent resp.content) := by
    rw [translateCall_miss_ok tw hmiss hok]
    exact if_pos ⟨hdb, hdbt, hout, hw, hne⟩
  refine ⟨?_, ?_, hcr, ?_, ?_⟩
  · rw [translateCall_miss_ok tw hmiss hok]
  · rw [translateCall_miss_ok tw hmiss hok]
  · rw [hcr]
    exact cacheSelect_upsert cw.rows text srcLang tgtLang (normalizeContent resp.content)
  · rw [hcr]
    exact cacheUpsert_unique cw.rows text srcLang tgtLang (normalizeContent resp.content)

/-- C7 witness: force online over a cache holding "old" replaces the
entry with the fresh translation. -/
theorem force_online_bypass_witness :
    (translateCall cfgCacheForce "hi" "en" "zh" cwOld twNone respHello).cacheRows =
      cacheUpsert cwOld.rows "hi" "en" "zh" (normalizeContent respHello.content) :=
  (force_online_bypass cfgCacheForce "hi" "en" "zh" cwOld twNone respHello rfl
    (by decide) (by decide) rfl rfl rfl (by decide)).2.2.1

/-- C1, counterexample: the claim says two identical calls with
force-online unset perform exactly one remote call, the second being
served from the cache written by the first.  When the remote response's
content normalizes to the empty string the first call writes nothing
back, so the identical second call performs a second remote call: two in
total. -/
theorem cache_idempotence_cex :
    (translateCall cfgCache "hi" "en" "zh" cwEmpty twNone respSentinelOnly).remoteCalls +
      (translateCall cfgCache "hi" "en" "zh"
        ⟨(translateCall cfgCache "hi" "en" "zh" cwEmpty twNone respSentinelOnly).cacheRows,
          .ok, true, true⟩ twNone respSentinelOnly).remoteCalls = 2 ∧
    (translateCall cfgCache "hi" "en" "zh" cwEmpty twNone respSentinelOnly).result = .ok "" ∧
    (translateCall cfgCache "hi" "en" "zh" cwEmpty twNone respSentinelOnly).cacheRows = [] :=
  ⟨by decide, by decide, by decide⟩

/-- C1, amended: with force-online unset and a healthy open store, a
cache hit is terminal — the cached text is returned with no remote call
and no term resolution, rows untouched — and two identical calls perform
exactly one remote call in total provided the first call misses, its
remote response is successful with a nonempty normalized translation, and
its cache write does not fail: the second call is then served from the
entry written back by the first. -/
theorem cache_hit_and_idempotence (cfg : Config) (text srcLang tgtLang : String)
    (cw : CacheWorld) (tw : TermsWorld) (resp : RemoteResponse)
    (hdb : cfg.databaseFile ≠ "") (hdbt : jsTrim cfg.databaseFile ≠ "")
    (hout : cw.openOutcome = CacheOpenOutcome.ok) (hforce : cfg.forceOnline ≠ "true")
    (hsel : cw.selectOk = true) :
    (∀ cached, cacheSelect cw.rows text srcLang tgtLang = some cached →
      translateCall cfg text srcLang tgtLang cw tw resp =
        ⟨.ok cached, cw.rows, tw.file, 0, false, none⟩) ∧
    (cacheSelect cw.rows text srcLang tgtLang = none → cw.writeOk = true →
      resp.ok = true → normalizeContent resp.content ≠ "" →
      (translateCall cfg text srcLang tgtLang cw tw resp).remoteCalls = 1 ∧
      (translateCall cfg text srcLang tgtLang cw tw resp).result =
        .ok (normalizeContent resp.content) ∧
      (∀ (cw2 : CacheWorld) (tw2 : TermsWorld) (resp2 : RemoteResponse),
        cw2.rows = (translateCall cfg text srcLang tgtLang cw tw resp).cacheRows →
        cw2.openOutcome = CacheOpenOutcome.ok → cw2.selectOk = true →
        (translateCall cfg text srcLang tgtLang cw2 tw2 resp2).remoteCalls = 0 ∧
        (translateCall cfg text srcLang tgtLang cw2 tw2 resp2).result =
          .ok (normalizeContent resp.content) ∧
        (translateCall cfg text srcLang tgtLang cw tw resp).remoteCalls +
          (translateCall cfg text srcLang tgtLang cw2 tw2 resp2).remoteCalls = 1)) := by
  constructor
  · intro cached hfound
    have hl : cacheLookup cfg text srcLang tgtLang cw = some cached := by
      rw [cacheLookup_pos text srcLang tgtLang hdb hdbt hout hforce hsel]
      exact hfound
    exact translateCall_hit tw resp hl
  · intro hnone hw hok hne
    have hl : cacheLookup cfg text srcLang tgtLang cw = none := by
      rw [cacheLookup_pos text srcLang tgtLang hdb hdbt hout hforce hsel]
      exact hnone
    have hcr : (translateCall cfg text srcLang tgtLang cw tw resp).cacheRows =
        cacheUpsert cw.rows text srcLang tgtLang (normalizeContent resp.content) := by
      rw [translateCall_miss_ok tw hl hok]
      exact if_pos ⟨hdb, hdbt, hout, hw, hne⟩
    refine ⟨by rw [translateCall_miss_ok tw hl hok],
      by rw [translateCall_miss_ok tw hl hok], ?_⟩
    intro cw2 tw2 resp2 hrows2 hout2 hsel2
    have hl2 : cacheLookup cfg text srcLang tgtLang cw2 =
        some (normalizeContent resp.content) := by
      rw [cacheLookup_pos text srcLang tgtLang hdb hdbt hout2 hforce hsel2]
      rw [hrows2, hcr]
      exact cacheSelect_upsert cw.rows text srcLang tgtLang (normalizeContent resp.content)
    have h2 := translateCall_hit tw2 resp2 hl2
    refine ⟨by rw [h2], by rw [h2], ?_⟩
    rw [translateCall_miss_ok tw hl hok, h2]
    rfl

/-- C1 witness: a miss followed by an identical call over the written-back
rows totals one remote call. -/
theorem cache_hit_and_idempotence_witness :
    (translateCall cfgCache "hi" "en" "zh" cwEmpty twNone respHello).remoteCalls +
      (translateCall cfgCache "hi" "en" "zh"
        ⟨(translateCall cfgCache "hi" "en" "zh" cwEmpty twNone respHello).cacheRows,
          .ok, true, true⟩ twNone respFail).remoteCalls = 1 :=
  (((cache_hit_and_idempotence cfgCache "hi" "en" "zh" cwEmpty twNone respHello (by decide)
      (by decide) rfl (by decide) rfl).2 rfl rfl rfl (by decide)).2.2
    ⟨(translateCall cfgCache "hi" "en" "zh" cwEmpty twNone respHello).cacheRows,
      .ok, true, true⟩ twNone respFail rfl rfl rfl).2.2
